import Mathlib

/-!
# Verification of the KnowledgeMCP knowledge-server core

A shallow embedding, in Lean 4, of the parts of the KnowledgeMCP Python
source that the checked properties speak about:

* `src/utils/chunking.py` — the three chunking strategies and `chunk_text`;
* `src/services/ocr_service.py` — `OCRService.is_ocr_needed`;
* `src/services/vector_store.py` — `VectorStore.search` (cross-context merge);
* `src/services/knowledge_service.py` — dedup in `add_document`, the
  processing pipeline `_process_document` / `_process_document_async`,
  `clear_knowledge_base`;
* `src/services/context_service.py` — document-count bookkeeping;
* `src/mcp/server.py` — the confirmation gates of the destructive tools;
* `src/mcp/http_server.py` — `handle_mcp_get`.

Texts are modelled as `List Char`.  Python floats (vector distances, the
0.7 alphanumeric threshold) are modelled as exact rationals/naturals;
float comparisons in the source are pure comparisons of such values.
Python's `str.strip` is modelled with `Char.isWhitespace`, `isalnum`
with `Char.isAlphanum` (an ASCII abstraction of the Unicode classes).
-/

/-- Python `str.strip()`: remove leading and trailing whitespace. -/
def pyStrip (t : List Char) : List Char :=
  (((t.dropWhile Char.isWhitespace).reverse.dropWhile Char.isWhitespace)).reverse

/-- Number of non-whitespace characters of a text. -/
def nonWsCount (t : List Char) : Nat :=
  (t.filter (fun c => !c.isWhitespace)).length

/-- `c` is one of the sentence-ending characters `[.!?]` of the regex in
`chunk_by_sentences`. -/
def isSentEnd (c : Char) : Bool :=
  c == '.' || c == '!' || c == '?'

/-- `[A-Z]` of the regex lookahead in `chunk_by_sentences`. -/
def isUpperAZ (c : Char) : Bool :=
  'A' ≤ c && c ≤ 'Z'

/-- Scanner for `re.split(r"(?<=[.!?])\s+(?=[A-Z])", text)`: a separator is a
maximal whitespace run whose preceding character is in `[.!?]` and whose
following character is in `[A-Z]`.  `acc` holds the current piece reversed;
while `inPending` is true, `pending` holds (reversed) a candidate whitespace
run that started right after a `[.!?]` character; it becomes a separator only
if the first character after the run is `[A-Z]`, otherwise its characters
belong to the current piece.  `prev` is the previously consumed character
(the regex lookbehind); its value is irrelevant while `inPending` is true. -/
def sentSplitGo (prev : Char) (acc pending : List Char) (inPending : Bool) :
    List Char → List (List Char)
  | [] => [(pending ++ acc).reverse]
  | c :: rest =>
    if inPending then
      if c.isWhitespace then
        sentSplitGo prev acc (c :: pending) true rest
      else if isUpperAZ c then
        acc.reverse :: sentSplitGo c [c] [] false rest
      else
        sentSplitGo c (c :: (pending ++ acc)) [] false rest
    else
      if isSentEnd prev && c.isWhitespace then
        sentSplitGo prev acc [c] true rest
      else
        sentSplitGo c (c :: acc) [] false rest

/-- `re.split(r"(?<=[.!?])\s+(?=[A-Z])", text)` from `chunk_by_sentences`.
The initial `prev` is a space: position 0 has no lookbehind character, and a
space never satisfies `[.!?]`. -/
def sentSplit (t : List Char) : List (List Char) :=
  sentSplitGo ' ' [] [] false t

/-- The overlap seeding loop of `chunk_by_sentences`: walk `reversed(current)`
(the first argument is the already-reversed current chunk), prepending
sentences while the accumulated length stays `≤ overlap`, stopping at the
first sentence that does not fit. -/
def takeOverlapSent (overlap : Nat) :
    List (List Char) → List (List Char) → Nat → List (List Char) × Nat
  | [], acc, size => (acc, size)
  | s :: rest, acc, size =>
    if size + s.length ≤ overlap then
      takeOverlapSent overlap rest (s :: acc) (size + s.length)
    else
      (acc, size)

/-- One iteration of the `for sentence in sentences` loop of
`chunk_by_sentences`.  The state is `(chunks, current_chunk, current_size)`. -/
def sentStep (chunkSize overlap : Nat)
    (st : List (List Char) × List (List Char) × Nat) (sentence : List Char) :
    List (List Char) × List (List Char) × Nat :=
  let chunks := st.1
  let current := st.2.1
  let size := st.2.2
  if chunkSize < size + sentence.length ∧ current ≠ [] then
    let seeded := takeOverlapSent overlap current.reverse [] 0
    (chunks ++ [List.intercalate [' '] current],
     seeded.1 ++ [sentence], seeded.2 + sentence.length)
  else
    (chunks, current ++ [sentence], size + sentence.length)

/-- `chunk_by_sentences(text, chunk_size, overlap)`. -/
def chunk_by_sentences (text : List Char) (chunkSize overlap : Nat) :
    List (List Char) :=
  let sentences := sentSplit text
  let st := sentences.foldl (sentStep chunkSize overlap) ([], [], 0)
  if st.2.1 = [] then st.1 else st.1 ++ [List.intercalate [' '] st.2.1]

/-- Python `text.split("\n\n")`: split on non-overlapping occurrences of the
two-character separator, scanning left to right.  `acc` holds the current
piece reversed. -/
def splitParGo (acc : List Char) : List Char → List (List Char)
  | '\n' :: '\n' :: rest => acc.reverse :: splitParGo [] rest
  | c :: rest => splitParGo (c :: acc) rest
  | [] => [acc.reverse]

/-- `text.split("\n\n")` from `chunk_by_paragraphs`. -/
def splitPar (t : List Char) : List (List Char) :=
  splitParGo [] t

/-- One iteration of the `for para in paragraphs` loop of
`chunk_by_paragraphs`: strip the paragraph, skip it when empty, and on
overflow emit the current chunk, seeding the next one with the previous
chunk's last paragraph only when that paragraph's length is `≤ overlap`. -/
def paraStep (chunkSize overlap : Nat)
    (st : List (List Char) × List (List Char) × Nat) (para : List Char) :
    List (List Char) × List (List Char) × Nat :=
  let p := pyStrip para
  if p = [] then st
  else
    let chunks := st.1
    let current := st.2.1
    let size := st.2.2
    if chunkSize < size + p.length ∧ current ≠ [] then
      let emitted := chunks ++ [List.intercalate ['\n', '\n'] current]
      match current.getLast? with
      | some lastP =>
        if lastP.length ≤ overlap then
          (emitted, [lastP] ++ [p], lastP.length + p.length)
        else
          (emitted, [p], p.length)
      | none => (emitted, [p], p.length)
    else
      (chunks, current ++ [p], size + p.length)

/-- `chunk_by_paragraphs(text, chunk_size, overlap)`. -/
def chunk_by_paragraphs (text : List Char) (chunkSize overlap : Nat) :
    List (List Char) :=
  let paragraphs := splitPar text
  let st := paragraphs.foldl (paraStep chunkSize overlap) ([], [], 0)
  if st.2.1 = [] then st.1 else st.1 ++ [List.intercalate ['\n', '\n'] st.2.1]

/-- The `while start < text_len` loop of `chunk_by_fixed_size`: emit
`text[start : start + chunk_size]` and advance `start` by
`chunk_size - overlap`.  The loop of the source diverges when
`overlap ≥ chunk_size` (the stride is not positive); the `fuel` argument
makes the Lean function total, and any `fuel ≥ text.length - start` is
enough to reproduce the source's behaviour when `overlap < chunk_size`
(each iteration advances `start` by at least one). -/
def chunkFixedAux (text : List Char) (chunkSize overlap : Nat) :
    Nat → Nat → List (List Char)
  | 0, _ => []
  | fuel + 1, start =>
    if start < text.length then
      ((text.drop start).take chunkSize) ::
        chunkFixedAux text chunkSize overlap fuel (start + (chunkSize - overlap))
    else []

/-- `chunk_by_fixed_size(text, chunk_size, overlap)`. -/
def chunk_by_fixed_size (text : List Char) (chunkSize overlap : Nat) :
    List (List Char) :=
  chunkFixedAux text chunkSize overlap (text.length + 1) 0

/-- The `Literal["sentence", "paragraph", "fixed"]` strategy names of
`chunk_text` (an unknown name raises `ValueError` in the source and is not
representable here). -/
inductive ChunkStrategy
  | sentence
  | paragraph
  | fixed
deriving DecidableEq

/-- `chunk_text(text, strategy, chunk_size, overlap)`: empty or
whitespace-only input yields `[]`; otherwise the stripped text is dispatched
to the strategy.  (`not text or not text.strip()` is equivalent to
`text.strip() == ""`.) -/
def chunk_text (text : List Char) (strategy : ChunkStrategy)
    (chunkSize overlap : Nat) : List (List Char) :=
  let s := pyStrip text
  if s = [] then []
  else
    match strategy with
    | .sentence => chunk_by_sentences s chunkSize overlap
    | .paragraph => chunk_by_paragraphs s chunkSize overlap
    | .fixed => chunk_by_fixed_size s chunkSize overlap

/-- Count of characters `c` with `c.isalnum() or c.isspace()`, the numerator
of the readability measure of `OCRService.is_ocr_needed`. -/
def alnumWsCount (t : List Char) : Nat :=
  (t.filter (fun c => c.isAlphanum || c.isWhitespace)).length

/-- `OCRService.is_ocr_needed(extracted_text)` with the instance flag
`force_ocr` passed explicitly.  The comparison `alnum / len(text) < 0.7`
of the source (on floats, with the `if extracted_text else 0` guard, which
is unreachable because the length check already returned for empty text)
is written fraction-free as `10 * alnum < 7 * len`. -/
def is_ocr_needed (forceOcr : Bool) (text : List Char) : Bool :=
  if forceOcr then true
  else if (pyStrip text).length < 100 then true
  else if 10 * alnumWsCount text < 7 * text.length then true
  else false

/-! ## Vector store: cross-context search (`VectorStore.search`) -/

/-- One result tuple `(id, distance, metadata, text)` as zipped together by
the cross-context branch of `VectorStore.search`.  The cosine distance,
a Python float, is modelled as an exact rational; metadata is kept opaque. -/
structure Hit where
  id : String
  dist : Rat
  meta : String
  text : String
deriving DecidableEq

/-- The arguments `(query_embeddings, n_results, where)` that
`VectorStore.search` passes to `collection.query`. -/
structure QueryArgs where
  queryEmbedding : List Rat
  nResults : Nat
  whereFilter : Option String
deriving DecidableEq

/-- A context collection, seen through the only operation the cross-context
search uses: `query`.  `none` models `collection.query` raising an exception
(caught and logged by the `except` clause of the merge loop). -/
def CollectionQ : Type := QueryArgs → Option (List Hit)

/-- Comparison key of `combined.sort(key=lambda x: x[1])`: ascending
distance. -/
def hitLE (a b : Hit) : Prop := a.dist ≤ b.dist

instance : DecidableRel hitLE := fun a b => inferInstanceAs (Decidable (a.dist ≤ b.dist))

instance : IsTotal Hit hitLE := ⟨fun a b => le_total a.dist b.dist⟩

instance : IsTrans Hit hitLE := ⟨fun _ _ _ h₁ h₂ => le_trans h₁ h₂⟩

/-- The merge loop of the cross-context branch: query every collection with
the same `(query_vector, top_k, where)` and extend the accumulator with each
successful result; a collection whose query raises is skipped. -/
def collectAllContexts (cols : List CollectionQ) (q : List Rat) (k : Nat)
    (w : Option String) : List Hit :=
  cols.foldl
    (fun acc col =>
      match col ⟨q, k, w⟩ with
      | some hits => acc ++ hits
      | none => acc)
    []

/-- The `context is None` branch of `VectorStore.search`: no collections
yields the empty result; otherwise collect all per-collection results,
and if any were found, sort them ascending by distance (Python's
`list.sort` is a stable sort; `List.insertionSort` is stable, and stable
sorts of the same list by the same key coincide) and keep the first
`top_k`. -/
def searchAllContexts (cols : List CollectionQ) (q : List Rat) (k : Nat)
    (w : Option String) : List Hit :=
  if cols.isEmpty then []
  else
    let merged := collectAllContexts cols q k w
    if merged.isEmpty then merged
    else (merged.insertionSort hitLE).take k

/-! ## Knowledge service: registry, dedup, processing pipeline -/

/-- `ProcessingStatus` of `src/models/document.py`. -/
inductive PStatus
  | pending
  | processing
  | completed
  | failed
  | part
deriving DecidableEq

/-- `TaskStatus` of `src/models/document.py`. -/
inductive TStatus
  | queued
  | running
  | completed
  | failed
  | cancelled
deriving DecidableEq

/-- The fields of a registered `Document` that the dedup and removal logic
reads: id, `content_hash`, `chunk_count` and the context list. -/
structure Doc where
  id : String
  contentHash : String
  chunkCount : Nat
  contexts : List String
deriving DecidableEq

/-- Total chunk count of a registry, `sum(doc.chunk_count ...)`. -/
def totalChunks (docs : List Doc) : Nat :=
  (docs.map Doc.chunkCount).sum

/-- The duplicate scan of `add_document`: the first registered document (in
registration order, as `dict.values()` iterates) whose `content_hash`
matches. -/
def findByHash (docs : List Doc) (hash : String) : Option Doc :=
  docs.find? (fun d => d.contentHash == hash)

/-- The dedup gate of `KnowledgeService.add_document` on the synchronous
path, after validation and hashing: if some registered document has the same
content hash, return its id and leave the registry unchanged (no new
document, no reprocessing); otherwise register a fresh document.  `freshId`
is the UUID the `Document` constructor would mint, and `processedChunks`
abstracts the chunk count the processing pipeline computes for this file
(the pipeline never reads the registry, so the count does not depend on
`docs`). -/
def add_document (docs : List Doc) (hash freshId : String)
    (processedChunks : Nat) (ctxs : List String) : String × List Doc :=
  match findByHash docs hash with
  | some d => (d.id, docs)
  | none => (freshId, docs ++ [⟨freshId, hash, processedChunks, ctxs⟩])

/-- The document fields `_process_document` mutates. -/
structure DocState where
  status : PStatus
  errorMessage : Option String
  chunkCount : Nat
deriving DecidableEq

/-- A freshly constructed `Document`: status PENDING, no error, zero
chunks. -/
def newDocState : DocState := ⟨PStatus.pending, none, 0⟩

/-- The `ProcessingTask` fields touched by `_process_document_async`. -/
structure TaskState where
  status : TStatus
  error : Option String
  progress : Rat
  currentStep : String
  completedSteps : Nat
  totalSteps : Nat
deriving DecidableEq

/-- What one run of `_process_document` produces: `raised` is `some e` when
an exception `e` escaped (the function has no `except` clause of its own,
only a `finally` restoring `force_ocr`), `doc` is the document's state
afterwards, `writes` the per-context embedding batches handed to
`vector_store.add_embeddings`, and `incremented` the contexts whose
`document_count` was incremented. -/
structure PipelineResult where
  raised : Option String
  doc : DocState
  writes : List (String × List (List Char))
  incremented : List String
deriving DecidableEq

/-- The tail of `_process_document` past the short-text check: chunk the
text; no chunks means COMPLETED with nothing written; otherwise one batch
write and one `document_count` increment per target context, then
`chunk_count = len(chunks)` and COMPLETED.  (Embedding is the out-of-scope
black-box encoder; the batch is represented by its chunk texts.) -/
def processProceed (doc : DocState) (text : List Char)
    (strategy : ChunkStrategy) (chunkSize overlap : Nat)
    (ctxs : List String) : PipelineResult :=
  let chunks := chunk_text text strategy chunkSize overlap
  if chunks = [] then ⟨none, { doc with status := PStatus.completed }, [], []⟩
  else
    ⟨none, { doc with status := PStatus.completed, chunkCount := chunks.length },
     ctxs.map (fun c => (c, chunks)), ctxs⟩

/-- `KnowledgeService._process_document(document, force_ocr)`: set status
PROCESSING, extract text (`extract` is the fallible extraction stage; an
exception anywhere in the pipeline propagates the same way), short-circuit
to COMPLETED when the text is empty or its stripped length is `< 10`,
otherwise continue with `processProceed`. -/
def processDocumentRun (doc₀ : DocState) (extract : Except String (List Char))
    (strategy : ChunkStrategy) (chunkSize overlap : Nat)
    (ctxs : List String) : PipelineResult :=
  let doc := { doc₀ with status := .processing }
  match extract with
  | .error e => ⟨some e, doc, [], []⟩
  | .ok text =>
    if text = [] ∨ (pyStrip text).length < 10 then
      ⟨none, { doc with status := PStatus.completed }, [], []⟩
    else
      processProceed doc text strategy chunkSize overlap ctxs

/-- `KnowledgeService._process_document_async(task_id, document, force_ocr)`:
mark the task RUNNING, record the first step, run `_process_document`; on
success mark the task COMPLETED with full progress, on exception mark both
the task and the document FAILED and record the error string. -/
def processDocumentAsyncRun (task₀ : TaskState) (doc : DocState)
    (extract : Except String (List Char)) (strategy : ChunkStrategy)
    (chunkSize overlap : Nat) (ctxs : List String) :
    TaskState × PipelineResult :=
  let task := { task₀ with status := TStatus.running, currentStep := "Extracting text",
                           completedSteps := 1, progress := (1 : Rat) / 4 }
  let r := processDocumentRun doc extract strategy chunkSize overlap ctxs
  match r.raised with
  | none =>
    ({ task with status := TStatus.completed, progress := 1,
                 completedSteps := task.totalSteps },
     r)
  | some e =>
    ({ task with status := TStatus.failed, error := some e },
     { r with doc := { r.doc with status := PStatus.failed, errorMessage := some e } })

/-- The synchronous branch of `add_document` around processing:
`await self._process_document(document, force_ocr)` has no exception
handler, so an exception propagates to the caller (first component `some e`)
and the document is left exactly as `_process_document` left it. -/
def addDocumentSyncProcess (doc : DocState)
    (extract : Except String (List Char)) (strategy : ChunkStrategy)
    (chunkSize overlap : Nat) (ctxs : List String) :
    Option String × DocState :=
  let r := processDocumentRun doc extract strategy chunkSize overlap ctxs
  (r.raised, r.doc)

/-! ## Contexts, knowledge-base state, clear, destructive tools -/

/-- The fields of a `Context` that the document-count bookkeeping touches.
The count is an integer (`document_count: int` in Python); the `Context`
model validates it non-negative at construction. -/
structure CtxState where
  name : String
  documentCount : Int
deriving DecidableEq

/-- The per-context effect of `ContextService.increment_document_count`
(`context.document_count += 1` on the named context).  The service looks the
context up in a name-keyed dict, so only the entry with the matching name
changes; a missing name raises `ContextNotFoundError` in the source, which
every caller catches, leaving the state unchanged — as the identity map
does here. -/
def incStep (name : String) (c : CtxState) : CtxState :=
  if c.name == name then { c with documentCount := c.documentCount + 1 } else c

/-- `ContextService.increment_document_count(name)`. -/
def increment_document_count (ctxs : List CtxState) (name : String) :
    List CtxState :=
  ctxs.map (incStep name)

/-- The per-context effect of `ContextService.decrement_document_count`:
`if context.document_count > 0: context.document_count -= 1`. -/
def decStep (name : String) (c : CtxState) : CtxState :=
  if c.name == name then
    { c with documentCount :=
        if 0 < c.documentCount then c.documentCount - 1 else c.documentCount }
  else c

/-- `ContextService.decrement_document_count(name)`. -/
def decrement_document_count (ctxs : List CtxState) (name : String) :
    List CtxState :=
  ctxs.map (decStep name)

/-- A sequence of increment/decrement calls on the context table. -/
inductive CountOp
  | inc (name : String)
  | dec (name : String)
deriving DecidableEq

/-- Apply a sequence of `increment_document_count` /
`decrement_document_count` calls in order. -/
def applyCountOps (ctxs : List CtxState) : List CountOp → List CtxState
  | [] => ctxs
  | .inc n :: rest => applyCountOps (increment_document_count ctxs n) rest
  | .dec n :: rest => applyCountOps (decrement_document_count ctxs n) rest

/-- The in-memory state a `KnowledgeService` owns: the document registry
(`_documents`, in insertion order), the task registry (`_tasks`), the
context table of its `ContextService`, and the vector store's collections —
each a context name paired with the `document_id` of every embedding stored
in it. -/
structure KBState where
  documents : List Doc
  tasks : List TaskState
  contexts : List CtxState
  collections : List (String × List String)
deriving DecidableEq

/-- `KnowledgeService.clear_knowledge_base()`: remember the document count,
reset the vector store (drop every collection), clear the document and task
registries, return the prior count.  The context table — in particular each
context's `document_count` — is not touched. -/
def clear_knowledge_base (st : KBState) : Nat × KBState :=
  (st.documents.length,
   { st with collections := [], documents := [], tasks := [] })

/-- `KnowledgeService.remove_document(document_id)`: when the id is unknown
return `False`; otherwise, for each of the document's contexts, delete that
context's embeddings whose `document_id` matches and decrement the context's
`document_count`, then drop the document from the registry. -/
def remove_document (st : KBState) (documentId : String) : Bool × KBState :=
  match st.documents.find? (fun d => d.id == documentId) with
  | none => (false, st)
  | some doc =>
    let st' := doc.contexts.foldl
      (fun s ctx =>
        { s with
          collections := s.collections.map
            (fun col =>
              if col.1 == ctx then (col.1, col.2.filter (fun i => !(i == documentId)))
              else col),
          contexts := decrement_document_count s.contexts ctx })
      st
    (true, { st' with documents := st'.documents.filter (fun d => !(d.id == documentId)) })

/-- The result envelopes of the destructive MCP tool handlers that the
claims distinguish: a success payload (abstracted), the
`{success:false, error:"confirmation_required"}` envelope, the
`{success:false, error:"not_found"}` envelope, and the catch-all
`{success:false, error:<exception-class>}` envelope produced by
`_handle_tool_call`'s `except` clause. -/
inductive ToolOutcome
  | success
  | confirmationRequired
  | notFound
  | errorEnvelope (exceptionClass : String)
deriving DecidableEq

/-- `KnowledgeMCPServer._handle_remove(args)`: without `confirm=true` return
`confirmation_required` untouched; with it, an unknown id returns
`not_found`, a known one is removed via `remove_document`. -/
def handleRemoveTool (st : KBState) (confirm : Bool) (documentId : String) :
    ToolOutcome × KBState :=
  if !confirm then (.confirmationRequired, st)
  else
    match st.documents.find? (fun d => d.id == documentId) with
    | none => (.notFound, st)
    | some _ => (.success, (remove_document st documentId).2)

/-- `KnowledgeMCPServer._handle_clear(args)`: without `confirm=true` return
`confirmation_required` untouched; with it, clear the knowledge base. -/
def handleClearTool (st : KBState) (confirm : Bool) : ToolOutcome × KBState :=
  if !confirm then (.confirmationRequired, st)
  else (.success, (clear_knowledge_base st).2)

/-- `KnowledgeMCPServer._handle_context_delete(args)`: without `confirm=true`
return `confirmation_required` untouched; with it, drop the vector-store
collection first (`delete_collection` swallows its own errors), then
`ContextService.delete_context` — which raises `ContextNotFoundError` for an
unknown name and `ReservedContextError` for `default`, both surfaced by
`_handle_tool_call` as error envelopes. -/
def handleContextDeleteTool (st : KBState) (confirm : Bool) (name : String) :
    ToolOutcome × KBState :=
  if !confirm then (.confirmationRequired, st)
  else
    let st₁ := { st with collections := st.collections.filter (fun c => !(c.1 == name)) }
    match st₁.contexts.find? (fun c => c.name == name) with
    | none => (.errorEnvelope "ContextNotFoundError", st₁)
    | some _ =>
      if name == "default" then (.errorEnvelope "ReservedContextError", st₁)
      else (.success, { st₁ with contexts := st₁.contexts.filter (fun c => !(c.name == name)) })

/-! ## HTTP Streamable transport: `handle_mcp_get` -/

/-- The request data `HTTPStreamableServer.handle_mcp_get` reads: the
`Origin`, `Accept` and `mcp-session-id` headers (`none` = header absent;
`request.headers.get("accept", "")` turns an absent Accept into `""`,
which the model's caller does by passing the empty string). -/
structure GetRequest where
  origin : Option String
  accept : String
  sessionId : Option String
deriving DecidableEq

/-- The four ways `handle_mcp_get` can respond. -/
inductive GetResponse
  | forbidden
  | methodNotAllowed
  | notFound
  | sseStream
deriving DecidableEq

/-- `needle` is a contiguous substring of `hay` (Python's `in` on
strings). -/
def strContains (needle hay : List Char) : Bool :=
  match hay with
  | [] => needle.isEmpty
  | _ :: rest => needle.isPrefixOf hay || strContains needle rest

/-- `HTTPStreamableServer._is_valid_origin(origin)`: any origin containing
`localhost`, `127.0.0.1` or `[::1]` as a substring passes. -/
def is_valid_origin (origin : String) : Bool :=
  strContains "localhost".data origin.data ||
  strContains "127.0.0.1".data origin.data ||
  strContains "[::1]".data origin.data

/-- `HTTPStreamableServer.handle_mcp_get(request)` with session table
`sessions`: 403 when an Origin header is present and invalid; 405 when the
Accept header does not contain `text/event-stream`; 404 when a session id
header is present (`if session_id and ...`) but unknown; otherwise the SSE
stream opens — in particular it opens when no session id header was sent. -/
def handle_mcp_get (sessions : List String) (req : GetRequest) : GetResponse :=
  if (match req.origin with
      | some o => !(is_valid_origin o)
      | none => false) then .forbidden
  else if !(strContains "text/event-stream".data req.accept.data) then
    .methodNotAllowed
  else
    match req.sessionId with
    | some sid => if !(sessions.contains sid) then .notFound else .sseStream
    | none => .sseStream

/-- The GET behaviour the amended claim describes, written from that
wording (for comparison with `handle_mcp_get`, which is written from the
source): with an acceptable Origin, a missing `text/event-stream` in Accept
gives 405; otherwise a session id that is supplied but unknown gives 404,
and a known session id — or no session id header at all — opens the SSE
stream. -/
def getResponseAmendedSpec (sessions : List String) (req : GetRequest) :
    GetResponse :=
  if (match req.origin with
      | some o => !(is_valid_origin o)
      | none => false) then .forbidden
  else if !(strContains "text/event-stream".data req.accept.data) then
    .methodNotAllowed
  else
    match req.sessionId with
    | none => .sseStream
    | some sid => if sessions.contains sid then .sseStream else .notFound

/-! ## Remaining definitions used by the statements -/

/-- The reconstruction reading of the spec's chunker property: the first
chunk, followed by every later chunk with its first `overlap` characters
removed. -/
def overlapConcat (overlap : Nat) : List (List Char) → List Char
  | [] => []
  | c :: rest => c ++ ((rest.map (fun r => r.drop overlap)).flatten)

/-- A concrete collection whose query succeeds with two hits (used to
instantiate the cross-context search theorem). -/
def sampleCollectionA : CollectionQ :=
  fun _ => some [⟨"a", 2, "m", "ta"⟩, ⟨"b", 5, "m", "tb"⟩]

/-- A concrete collection whose query succeeds with one hit. -/
def sampleCollectionB : CollectionQ :=
  fun _ => some [⟨"c", 1, "m", "tc"⟩]

/-- A concrete collection whose query raises. -/
def sampleCollectionErr : CollectionQ :=
  fun _ => none

/-! ## Helper lemmas -/

lemma dropWhile_eq_self_of_forall (p : Char → Bool) (t : List Char)
    (h : ∀ c ∈ t, p c = false) : t.dropWhile p = t := by
  cases t with
  | nil => rfl
  | cons a l =>
    exact List.dropWhile_cons_of_neg (by simp [h a (List.mem_cons_self a l)])

lemma pyStrip_of_no_ws (t : List Char) (h : ∀ c ∈ t, c.isWhitespace = false) :
    pyStrip t = t := by
  unfold pyStrip
  rw [dropWhile_eq_self_of_forall _ _ h,
      dropWhile_eq_self_of_forall _ _
        (fun c hc => h c (List.mem_reverse.1 hc)),
      List.reverse_reverse]

lemma filter_dropWhile_of_excl (p q : α → Bool) (h : ∀ a, q a = true → p a = false) :
    ∀ l : List α, (l.dropWhile q).filter p = l.filter p := by
  intro l
  induction l with
  | nil => rfl
  | cons a l ih =>
    by_cases hq : q a
    · rw [List.dropWhile_cons_of_pos hq, ih, List.filter_cons_of_neg (by simp [h a hq])]
    · rw [List.dropWhile_cons_of_neg hq]

lemma nonWsCount_pyStrip (t : List Char) : nonWsCount (pyStrip t) = nonWsCount t := by
  have hx : ∀ c : Char, c.isWhitespace = true → (!c.isWhitespace) = false := by
    intro c hc; simp [hc]
  unfold nonWsCount pyStrip
  rw [List.filter_reverse, filter_dropWhile_of_excl _ _ hx, List.filter_reverse,
      List.reverse_reverse, filter_dropWhile_of_excl _ _ hx]

lemma nonWsCount_le_pyStrip_length (t : List Char) :
    nonWsCount t ≤ (pyStrip t).length := by
  rw [← nonWsCount_pyStrip]
  exact List.length_filter_le _ _

lemma alnumWsCount_bigSample :
    alnumWsCount (List.replicate 6999 'a' ++ List.replicate 3001 '!') = 6999 := by
  unfold alnumWsCount
  rw [List.filter_append, List.filter_replicate_of_pos (by decide),
      List.filter_replicate_of_neg (by decide)]
  rw [List.append_nil, List.length_replicate]

lemma pyStrip_bigSample :
    pyStrip (List.replicate 6999 'a' ++ List.replicate 3001 '!')
      = List.replicate 6999 'a' ++ List.replicate 3001 '!' := by
  apply pyStrip_of_no_ws
  intro c hc
  rcases List.mem_append.1 hc with h | h
  · rw [List.eq_of_mem_replicate h]; decide
  · rw [List.eq_of_mem_replicate h]; decide

lemma chunkFixedAux_flatten_drop (text : List Char) (cs ov : Nat) (hov : ov < cs) :
    ∀ fuel start, text.length - start ≤ fuel →
      ((chunkFixedAux text cs ov fuel start).map (fun c => c.drop ov)).flatten
        = text.drop (start + ov) := by
  intro fuel
  induction fuel with
  | zero =>
    intro start h
    simp only [chunkFixedAux, List.map_nil, List.flatten_nil]
    exact (List.drop_eq_nil_of_le (by omega)).symm
  | succ f ih =>
    intro start h
    by_cases hs : start < text.length
    · simp only [chunkFixedAux, if_pos hs, List.map_cons, List.flatten_cons]
      rw [ih (start + (cs - ov)) (by omega)]
      rw [List.drop_take, List.drop_drop]
      have key := List.take_append_drop (cs - ov) (List.drop (start + ov) text)
      rw [List.drop_drop] at key
      have h1 : start + (cs - ov) + ov = start + ov + (cs - ov) := by omega
      rw [h1]
      exact key
    · simp only [chunkFixedAux, if_neg hs, List.map_nil, List.flatten_nil]
      exact (List.drop_eq_nil_of_le (by omega)).symm

lemma chunkFixedAux_getElem? (text : List Char) (cs ov : Nat) (hov : ov < cs) :
    ∀ fuel start i, text.length - start ≤ fuel →
      (chunkFixedAux text cs ov fuel start)[i]? =
        (if start + i * (cs - ov) < text.length
         then some ((text.drop (start + i * (cs - ov))).take cs) else none) := by
  intro fuel
  induction fuel with
  | zero =>
    intro start i h
    rw [if_neg (Nat.not_lt.2 (le_trans (by omega) (Nat.le_add_right start _)))]
    simp [chunkFixedAux]
  | succ f ih =>
    intro start i h
    by_cases hs : start < text.length
    · simp only [chunkFixedAux, if_pos hs]
      cases i with
      | zero => simp [hs]
      | succ j =>
        rw [List.getElem?_cons_succ, ih (start + (cs - ov)) j (by omega)]
        have harith : start + (cs - ov) + j * (cs - ov) = start + (j + 1) * (cs - ov) := by
          ring
        rw [harith]
    · simp only [chunkFixedAux, if_neg hs]
      rw [if_neg (Nat.not_lt.2 (le_trans (Nat.not_lt.1 hs) (Nat.le_add_right start _)))]
      simp

lemma chunk_by_fixed_size_getElem? (s : List Char) (cs ov : Nat) (hov : ov < cs)
    (i : Nat) :
    (chunk_by_fixed_size s cs ov)[i]? =
      (if i * (cs - ov) < s.length
       then some ((s.drop (i * (cs - ov))).take cs) else none) := by
  unfold chunk_by_fixed_size
  have h := chunkFixedAux_getElem? s cs ov hov (s.length + 1) 0 i (by omega)
  simpa using h

lemma chunk_by_fixed_size_chunk_len (s : List Char) (cs ov : Nat) (hov : ov < cs) :
    ∀ c ∈ chunk_by_fixed_size s cs ov, c.length ≤ cs := by
  intro c hc
  rcases List.mem_iff_getElem?.1 hc with ⟨i, hi⟩
  rw [chunk_by_fixed_size_getElem? s cs ov hov i] at hi
  split at hi
  · cases hi
    exact List.length_take_le _ _
  · cases hi

lemma chunk_by_fixed_size_overlapConcat (s : List Char) (cs ov : Nat)
    (hov : ov < cs) (hnil : s ≠ []) :
    overlapConcat ov (chunk_by_fixed_size s cs ov) = s := by
  have hlen : 0 < s.length := List.length_pos.2 hnil
  unfold chunk_by_fixed_size
  simp only [chunkFixedAux, if_pos hlen, overlapConcat]
  rw [chunkFixedAux_flatten_drop s cs ov hov s.length (0 + (cs - ov)) (by omega)]
  simp only [List.drop_zero, Nat.zero_add]
  have h2 : cs - ov + ov = cs := by omega
  rw [h2]
  exact List.take_append_drop cs s

lemma collectAllContexts_eq (cols : List CollectionQ) (q : List Rat) (k : Nat)
    (w : Option String) :
    collectAllContexts cols q k w
      = (cols.filterMap (fun col => col ⟨q, k, w⟩)).flatten := by
  have haux : ∀ (cs : List CollectionQ) (acc : List Hit),
      cs.foldl
        (fun acc col =>
          match col ⟨q, k, w⟩ with
          | some hits => acc ++ hits
          | none => acc)
        acc
      = acc ++ (cs.filterMap (fun col => col ⟨q, k, w⟩)).flatten := by
    intro cs
    induction cs with
    | nil => intro acc; simp
    | cons c cs ih =>
      intro acc
      rw [List.foldl_cons, ih, List.filterMap_cons]
      cases h : c ⟨q, k, w⟩ with
      | none => simp [h]
      | some hits => simp [h, List.append_assoc]
  exact haux cols []

lemma applyCountOps_nonneg : ∀ (ops : List CountOp) (ctxs : List CtxState),
    (∀ x ∈ ctxs, 0 ≤ x.documentCount) →
    ∀ x ∈ applyCountOps ctxs ops, 0 ≤ x.documentCount := by
  intro ops
  induction ops with
  | nil => intro ctxs h; simpa [applyCountOps] using h
  | cons op rest ih =>
    intro ctxs h
    cases op with
    | inc n =>
      apply ih
      intro x hx
      rcases List.mem_map.1 hx with ⟨y, hy, rfl⟩
      unfold incStep
      split
      · have := h y hy; simp; omega
      · exact h y hy
    | dec n =>
      apply ih
      intro x hx
      rcases List.mem_map.1 hx with ⟨y, hy, rfl⟩
      unfold decStep
      split
      · have := h y hy
        simp only
        split <;> omega
      · exact h y hy

/-! ## Claim theorems -/

/-- C1: a search with no context given queries every existing collection
with the same `(query_vector, k, where)`; the result is the stable sort by
ascending distance of the union of the per-collection results, truncated
to the first `k` (hence sorted, of length at most `k`); a collection whose
query raises is skipped without failing the whole search; and with no
collections the result is empty. -/
theorem C1_cross_context_search (cols cols₁ cols₂ : List CollectionQ)
    (col : CollectionQ) (q : List Rat) (k : Nat) (w : Option String) :
    searchAllContexts [] q k w = []
    ∧ searchAllContexts cols q k w
        = ((collectAllContexts cols q k w).insertionSort hitLE).take k
    ∧ List.Sorted hitLE (searchAllContexts cols q k w)
    ∧ (searchAllContexts cols q k w).length ≤ k
    ∧ (col ⟨q, k, w⟩ = none →
        searchAllContexts (cols₁ ++ col :: cols₂) q k w
          = searchAllContexts (cols₁ ++ cols₂) q k w) := by
  have hmain : ∀ cs : List CollectionQ,
      searchAllContexts cs q k w
        = ((collectAllContexts cs q k w).insertionSort hitLE).take k := by
    intro cs
    unfold searchAllContexts
    by_cases hcs : cs.isEmpty
    · rw [if_pos hcs]
      have : cs = [] := List.isEmpty_iff.1 hcs
      subst this
      simp [collectAllContexts]
    · rw [if_neg hcs]
      by_cases hm : (collectAllContexts cs q k w).isEmpty
      · rw [if_pos hm]
        have : collectAllContexts cs q k w = [] := List.isEmpty_iff.1 hm
        rw [this]
        simp [List.insertionSort]
      · rw [if_neg hm]
  refine ⟨rfl, hmain cols, ?_, ?_, ?_⟩
  · rw [hmain cols]
    exact (List.sorted_insertionSort hitLE _).sublist (List.take_sublist _ _)
  · rw [hmain cols]
    exact List.length_take_le _ _
  · intro hnone
    rw [hmain _, hmain _, collectAllContexts_eq, collectAllContexts_eq]
    rw [List.filterMap_append, List.filterMap_append, List.filterMap_cons, hnone]

/-- C1, witnessed at concrete collections: the erroring collection is
skipped, and the merged search of two one-collection successes is the
2-truncated ascending-distance merge. -/
theorem C1_cross_context_search_witness :
    sampleCollectionErr ⟨[], 2, none⟩ = none
    ∧ searchAllContexts
        ([sampleCollectionA] ++ sampleCollectionErr :: [sampleCollectionB]) [] 2 none
        = searchAllContexts ([sampleCollectionA] ++ [sampleCollectionB]) [] 2 none
    ∧ searchAllContexts ([sampleCollectionA] ++ [sampleCollectionB]) [] 2 none
        = [⟨"c", 1, "m", "tc"⟩, ⟨"a", 2, "m", "ta"⟩] :=
  ⟨rfl,
   (C1_cross_context_search [] [sampleCollectionA] [sampleCollectionB]
      sampleCollectionErr [] 2 none).2.2.2.2 rfl,
   by decide⟩

/-- C2: `add_document` is idempotent on file content.  When a registered
document has the same content hash, its id is returned and the registry is
unchanged; adding the same bytes twice returns the same id the first call
produced, leaves the registry as the first call left it, and does not
increase the total chunk count. -/
theorem C2_add_document_dedup (docs : List Doc) (hash f₁ f₂ : String)
    (n₁ n₂ : Nat) (cs₁ cs₂ : List String) (d : Doc) :
    (findByHash docs hash = some d →
      add_document docs hash f₁ n₁ cs₁ = (d.id, docs))
    ∧ (add_document (add_document docs hash f₁ n₁ cs₁).2 hash f₂ n₂ cs₂).1
        = (add_document docs hash f₁ n₁ cs₁).1
    ∧ (add_document (add_document docs hash f₁ n₁ cs₁).2 hash f₂ n₂ cs₂).2
        = (add_document docs hash f₁ n₁ cs₁).2
    ∧ totalChunks (add_document (add_document docs hash f₁ n₁ cs₁).2 hash f₂ n₂ cs₂).2
        = totalChunks (add_document docs hash f₁ n₁ cs₁).2 := by
  have htwice : add_document (add_document docs hash f₁ n₁ cs₁).2 hash f₂ n₂ cs₂
      = ((add_document docs hash f₁ n₁ cs₁).1,
         (add_document docs hash f₁ n₁ cs₁).2) := by
    cases h : findByHash docs hash with
    | some d' => simp [add_document, h]
    | none =>
      have h2 : findByHash (docs ++ [⟨f₁, hash, n₁, cs₁⟩]) hash
          = some ⟨f₁, hash, n₁, cs₁⟩ := by
        unfold findByHash at h ⊢
        rw [List.find?_append, h]
        simp
      simp [add_document, h, h2]
  refine ⟨?_, ?_, ?_, ?_⟩
  · intro h; simp [add_document, h]
  · rw [htwice]
  · rw [htwice]
  · rw [htwice]

/-- C2, witnessed on a one-document registry whose hash matches the added
file: the existing id comes back and the registry is untouched. -/
theorem C2_add_document_dedup_witness :
    findByHash [⟨"doc-1", "hash-1", 2, ["default"]⟩] "hash-1"
        = some ⟨"doc-1", "hash-1", 2, ["default"]⟩
    ∧ add_document [⟨"doc-1", "hash-1", 2, ["default"]⟩] "hash-1" "fresh-id" 7 ["aws"]
        = ("doc-1", [⟨"doc-1", "hash-1", 2, ["default"]⟩]) :=
  ⟨by decide,
   (C2_add_document_dedup [⟨"doc-1", "hash-1", 2, ["default"]⟩] "hash-1" "fresh-id"
      "x" 7 0 ["aws"] [] ⟨"doc-1", "hash-1", 2, ["default"]⟩).1 (by decide)⟩

/-- C3: the OCR decision returns true exactly when `force_ocr` is set, or
the stripped length is below 100, or the alphanumeric-or-whitespace count
over the whole text is below 70%; in particular stripped length 99
triggers, 100 characters at exactly 70% do not, and texts below the 70%
line (100 characters at 69%, 10000 characters at exactly 69.99%) do. -/
theorem C3_ocr_decision :
    (∀ (forceOcr : Bool) (text : List Char),
      is_ocr_needed forceOcr text =
        (forceOcr || decide ((pyStrip text).length < 100) ||
          decide (10 * alnumWsCount text < 7 * text.length)))
    ∧ is_ocr_needed false (List.replicate 99 'a') = true
    ∧ is_ocr_needed false (List.replicate 70 'a' ++ List.replicate 30 '!') = false
    ∧ is_ocr_needed false (List.replicate 69 'a' ++ List.replicate 31 '!') = true
    ∧ is_ocr_needed false (List.replicate 6999 'a' ++ List.replicate 3001 '!') = true := by
  have hmain : ∀ (forceOcr : Bool) (text : List Char),
      is_ocr_needed forceOcr text =
        (forceOcr || decide ((pyStrip text).length < 100) ||
          decide (10 * alnumWsCount text < 7 * text.length)) := by
    intro f t
    cases f <;> by_cases h1 : (pyStrip t).length < 100 <;>
      by_cases h2 : 10 * alnumWsCount t < 7 * t.length <;>
      simp [is_ocr_needed, h1, h2]
  refine ⟨hmain, by decide, by decide, by decide, ?_⟩
  rw [hmain, alnumWsCount_bigSample, pyStrip_bigSample, List.length_append,
    List.length_replicate, List.length_replicate]
  decide

/-- C4 (as stated) is refuted: the text `"a        b"` has only 2
non-whitespace characters, yet processing does not short-circuit — it
produces one chunk and writes a batch to the `default` collection, because
the source gates on `len(text.strip()) < 10`, which is 10 here. -/
theorem C4_counterexample_nonws_vs_strip :
    nonWsCount ('a' :: (List.replicate 8 ' ' ++ ['b'])) = 2
    ∧ (processDocumentRun newDocState (.ok ('a' :: (List.replicate 8 ' ' ++ ['b'])))
        .fixed 500 50 ["default"]).doc.chunkCount = 1
    ∧ (processDocumentRun newDocState (.ok ('a' :: (List.replicate 8 ' ' ++ ['b'])))
        .fixed 500 50 ["default"]).writes
        = [("default", ['a' :: (List.replicate 8 ' ' ++ ['b'])])] := by
  refine ⟨by decide, by decide, by decide⟩

/-- C4 (amended): a document whose extracted text is empty or shorter than
10 characters after stripping is marked COMPLETED with zero chunks and no
vector writes; conversely one with at least 10 non-whitespace characters
proceeds past the short-circuit to chunking and embedding. -/
theorem C4_short_text_short_circuit (text : List Char)
    (strategy : ChunkStrategy) (cs ov : Nat) (ctxs : List String) :
    ((text = [] ∨ (pyStrip text).length < 10) →
      processDocumentRun newDocState (.ok text) strategy cs ov ctxs
        = ⟨none, ⟨.completed, none, 0⟩, [], []⟩)
    ∧ (10 ≤ nonWsCount text →
      processDocumentRun newDocState (.ok text) strategy cs ov ctxs
        = processProceed ⟨.processing, none, 0⟩ text strategy cs ov ctxs) := by
  constructor
  · intro h
    simp [processDocumentRun, newDocState, h]
  · intro h
    have hle : nonWsCount text ≤ (pyStrip text).length :=
      nonWsCount_le_pyStrip_length text
    have hne : ¬(text = [] ∨ (pyStrip text).length < 10) := by
      rintro (rfl | hlt)
      · simp [nonWsCount] at h
      · omega
    simp [processDocumentRun, newDocState, hne]

/-- C4 (amended), witnessed: `"hi"` short-circuits to COMPLETED with zero
chunks and no writes, `"abcdefghij"` (10 non-whitespace characters)
proceeds to chunking. -/
theorem C4_short_text_short_circuit_witness :
    processDocumentRun newDocState (.ok "hi".data) .fixed 500 50 ["default"]
        = ⟨none, ⟨.completed, none, 0⟩, [], []⟩
    ∧ processDocumentRun newDocState (.ok "abcdefghij".data) .fixed 500 50 ["default"]
        = processProceed ⟨.processing, none, 0⟩ "abcdefghij".data .fixed 500 50
            ["default"] :=
  ⟨(C4_short_text_short_circuit "hi".data .fixed 500 50 ["default"]).1 (by decide),
   (C4_short_text_short_circuit "abcdefghij".data .fixed 500 50 ["default"]).2
     (by decide)⟩

/-- C5 (as stated) is refuted on the synchronous path: when extraction
raises `"boom"`, the exception propagates out of `add_document` and the
document is left with status PROCESSING — not FAILED — and no
`error_message`. -/
theorem C5_counterexample_sync_path :
    (addDocumentSyncProcess newDocState (.error "boom") .fixed 500 50 ["default"]).1
        = some "boom"
    ∧ (addDocumentSyncProcess newDocState (.error "boom") .fixed 500 50 ["default"]).2.status
        ≠ PStatus.failed
    ∧ (addDocumentSyncProcess newDocState (.error "boom") .fixed 500 50 ["default"]).2.status
        = PStatus.processing
    ∧ (addDocumentSyncProcess newDocState (.error "boom") .fixed 500 50 ["default"]).2.errorMessage
        = none := by
  refine ⟨rfl, by decide, rfl, rfl⟩

/-- C5 (amended): on the asynchronous path an exception during processing
marks the task FAILED with the error string and the document FAILED with
`error_message` set; on the synchronous path the exception propagates to
the caller and the document keeps status PROCESSING with its
`error_message` untouched. -/
theorem C5_failure_paths (task : TaskState) (doc : DocState) (e : String)
    (strategy : ChunkStrategy) (cs ov : Nat) (ctxs : List String) :
    ((processDocumentAsyncRun task doc (.error e) strategy cs ov ctxs).1.status
        = TStatus.failed
      ∧ (processDocumentAsyncRun task doc (.error e) strategy cs ov ctxs).1.error
        = some e
      ∧ (processDocumentAsyncRun task doc (.error e) strategy cs ov ctxs).2.doc.status
        = PStatus.failed
      ∧ (processDocumentAsyncRun task doc (.error e) strategy cs ov ctxs).2.doc.errorMessage
        = some e)
    ∧ ((addDocumentSyncProcess doc (.error e) strategy cs ov ctxs).1 = some e
      ∧ (addDocumentSyncProcess doc (.error e) strategy cs ov ctxs).2.status
        = PStatus.processing
      ∧ (addDocumentSyncProcess doc (.error e) strategy cs ov ctxs).2.errorMessage
        = doc.errorMessage) :=
  ⟨⟨rfl, rfl, rfl, rfl⟩, ⟨rfl, rfl, rfl⟩⟩

/-- C6 (as stated) is refuted: clearing a knowledge base whose `aws`
context has `document_count = 3` leaves that count at 3, because
`clear_knowledge_base` never touches the context table. -/
theorem C6_counterexample_context_counts :
    ((clear_knowledge_base
        ⟨[⟨"d1", "h1", 2, ["aws"]⟩], [],
         [⟨"default", 0⟩, ⟨"aws", 3⟩], [("aws", ["d1", "d1"])]⟩).2.contexts.all
      (fun c => c.documentCount == 0)) = false := by
  decide

/-- C6 (amended): `clear_knowledge_base` returns the number of documents
registered before the call, resets the vector store, and empties the
document and task registries; each context's `document_count` is left
exactly as it was. -/
theorem C6_clear_knowledge_base (st : KBState) :
    (clear_knowledge_base st).1 = st.documents.length
    ∧ (clear_knowledge_base st).2.documents = []
    ∧ (clear_knowledge_base st).2.tasks = []
    ∧ (clear_knowledge_base st).2.collections = []
    ∧ (clear_knowledge_base st).2.contexts = st.contexts :=
  ⟨rfl, rfl, rfl, rfl, rfl⟩

/-- C7 (as stated) is refuted: a GET with `Accept: text/event-stream` and
no `mcp-session-id` header opens the SSE stream instead of returning 404,
because the source only checks `if session_id and session_id not in
self.sessions`. -/
theorem C7_counterexample_absent_session :
    handle_mcp_get [] ⟨none, "text/event-stream", none⟩ = GetResponse.sseStream
    ∧ GetResponse.sseStream ≠ GetResponse.notFound := by
  refine ⟨by decide, by decide⟩

/-- C7 (amended): for every GET with an acceptable Origin, the response is
405 when Accept does not list `text/event-stream`; with it, a session id
that is present but unknown gives 404, while a known session id — or no
session id header at all — opens the SSE stream. -/
theorem C7_get_amended (sessions : List String) (req : GetRequest) :
    handle_mcp_get sessions req = getResponseAmendedSpec sessions req := by
  unfold handle_mcp_get getResponseAmendedSpec
  rcases req with ⟨o, a, s⟩
  rcases s with _ | sid
  · rfl
  · simp only
    by_cases h : sessions.contains sid <;> simp [h]

/-- C8: for `overlap < chunk_size`, fixed-strategy chunking of `t` yields
exactly the windows `s[i*(chunk_size-overlap) : i*(chunk_size-overlap) +
chunk_size]` of the stripped text `s`; no chunk exceeds `chunk_size`
characters; and the first chunk followed by every later chunk minus its
first `overlap` characters reproduces `s` exactly. -/
theorem C8_fixed_chunking (t : List Char) (cs ov : Nat) (hov : ov < cs) :
    (∀ i, (chunk_text t .fixed cs ov)[i]? =
        (if i * (cs - ov) < (pyStrip t).length
         then some (((pyStrip t).drop (i * (cs - ov))).take cs) else none))
    ∧ (∀ c ∈ chunk_text t .fixed cs ov, c.length ≤ cs)
    ∧ overlapConcat ov (chunk_text t .fixed cs ov) = pyStrip t := by
  by_cases hnil : pyStrip t = []
  · have hc : chunk_text t .fixed cs ov = [] := by simp [chunk_text, hnil]
    rw [hc]
    refine ⟨?_, ?_, ?_⟩
    · intro i
      rw [if_neg (by simp [hnil])]
      simp
    · intro c hc'; cases hc'
    · simpa [overlapConcat] using hnil.symm
  · have hc : chunk_text t .fixed cs ov = chunk_by_fixed_size (pyStrip t) cs ov := by
      simp [chunk_text, hnil]
    rw [hc]
    exact ⟨chunk_by_fixed_size_getElem? (pyStrip t) cs ov hov,
           chunk_by_fixed_size_chunk_len (pyStrip t) cs ov hov,
           chunk_by_fixed_size_overlapConcat (pyStrip t) cs ov hov hnil⟩

/-- C8, witnessed at `"abcdefg"`, `chunk_size = 3`, `overlap = 1`: the
chunks are the stride-2 windows, and dropping one character from each later
chunk reassembles the text. -/
theorem C8_fixed_chunking_witness :
    chunk_text "abcdefg".data .fixed 3 1
        = ["abc".data, "cde".data, "efg".data, "g".data]
    ∧ (1 : Nat) < 3
    ∧ overlapConcat 1 (chunk_text "abcdefg".data .fixed 3 1) = pyStrip "abcdefg".data :=
  ⟨by decide, by decide, (C8_fixed_chunking "abcdefg".data 3 1 (by decide)).2.2⟩

/-- C9: each destructive tool called without `confirm = true` returns the
`confirmation_required` envelope and leaves the knowledge base unchanged;
`knowledge-remove` with `confirm = true` on an id that is not in the
registry returns the `not_found` envelope, also leaving the state
unchanged. -/
theorem C9_confirmation_gates (st : KBState) (documentId name : String) :
    handleRemoveTool st false documentId = (.confirmationRequired, st)
    ∧ handleClearTool st false = (.confirmationRequired, st)
    ∧ handleContextDeleteTool st false name = (.confirmationRequired, st)
    ∧ (st.documents.find? (fun d => d.id == documentId) = none →
        handleRemoveTool st true documentId = (.notFound, st)) := by
  refine ⟨rfl, rfl, rfl, ?_⟩
  intro h
  simp [handleRemoveTool, h]

/-- C9, witnessed on an empty registry: removing an unknown id with
confirmation returns `not_found` and changes nothing. -/
theorem C9_confirmation_gates_witness :
    (KBState.documents ⟨[], [], [⟨"default", 0⟩], []⟩).find? (fun d => d.id == "X")
        = none
    ∧ handleRemoveTool ⟨[], [], [⟨"default", 0⟩], []⟩ true "X"
        = (.notFound, ⟨[], [], [⟨"default", 0⟩], []⟩) :=
  ⟨by decide,
   (C9_confirmation_gates ⟨[], [], [⟨"default", 0⟩], []⟩ "X" "n").2.2.2 (by decide)⟩

/-- C10: document counts stay non-negative under every sequence of
increment and decrement calls; increment adds one to the named context's
count, and decrement on a count of 0 leaves the context unchanged instead
of going negative. -/
theorem C10_document_count_nonneg (ctxs : List CtxState) (ops : List CountOp)
    (name : String) (c : CtxState) :
    ((∀ x ∈ ctxs, 0 ≤ x.documentCount) →
      ∀ x ∈ applyCountOps ctxs ops, 0 ≤ x.documentCount)
    ∧ (c.name = name → (incStep name c).documentCount = c.documentCount + 1)
    ∧ (c.documentCount = 0 → decStep name c = c) := by
  refine ⟨applyCountOps_nonneg ops ctxs, ?_, ?_⟩
  · intro h
    simp [incStep, h]
  · intro h
    rcases c with ⟨cn, cc⟩
    simp only at h
    subst h
    simp [decStep]

/-- C10, witnessed: two decrements on a zero count followed by further
operations never drive the count negative; increment adds one; decrement
at zero is the identity. -/
theorem C10_document_count_nonneg_witness :
    (∀ x ∈ applyCountOps [⟨"default", 0⟩]
        [.dec "default", .dec "default", .inc "default", .dec "default",
         .dec "default"],
      0 ≤ x.documentCount)
    ∧ (incStep "aws" ⟨"aws", 5⟩).documentCount = 6
    ∧ decStep "aws" ⟨"aws", 0⟩ = ⟨"aws", 0⟩ :=
  ⟨(C10_document_count_nonneg [⟨"default", 0⟩]
      [.dec "default", .dec "default", .inc "default", .dec "default",
       .dec "default"] "z" ⟨"z", 0⟩).1 (by decide),
   (C10_document_count_nonneg [] [] "aws" ⟨"aws", 5⟩).2.1 rfl,
   (C10_document_count_nonneg [] [] "aws" ⟨"aws", 0⟩).2.2 rfl⟩
